import Mathlib

/-!
Verification of the data model and agent plumbing of the
`synergising-agents` backend (`src/backend/app`).

The Python source uses pydantic models whose construction validates the
declared `Field` constraints.  Each pydantic model is embedded as a Lean
structure together with a `mk…` function returning `Option` that performs
exactly the validation the source declares; `none` means pydantic raises a
`ValidationError` on construction.  Floats are modelled as `Rat`,
`datetime` as `Nat` timestamps, and `Dict[str, Any]` payloads as
association lists of strings (their content never matters to validation).
-/

/-- `WorkflowStatus` from `data_models.py`. -/
inductive WorkflowStatus
  | pending
  | running
  | completed
  | failed
  | cancelled
  deriving DecidableEq, Repr

/-- `AgentType` from `data_models.py`. -/
inductive AgentType
  | forecasting
  | news
  | simulation
  | summary
  deriving DecidableEq, Repr

/-- `DataSourceType` from `data_models.py`. -/
inductive DataSourceType
  | excel
  | world_bank
  | fred
  | google_trends
  | usda
  | news_api
  deriving DecidableEq, Repr

/-- Stand-in for `Dict[str, Any]` payload values: the validators of the
claims under study never inspect payload contents. -/
abbrev Payload := List (String × String)

/-- `DataSource` from `data_models.py` (no field constraints). -/
structure DataSource where
  type : DataSourceType
  name : String
  description : Option String
  parameters : Payload
  last_updated : Option Nat
  deriving DecidableEq, Repr

/-- `WorkflowInput` from `data_models.py` (no field constraints). -/
structure WorkflowInput where
  data_sources : List DataSource
  analysis_parameters : Payload
  user_preferences : Payload
  deriving DecidableEq, Repr

/-- `AgentResult` from `data_models.py`: `agent_type : AgentType`,
`status : WorkflowStatus`, `result : Dict`, optional `execution_time`
and `error_message`, `generated_at` timestamp. -/
structure AgentResult where
  agent_type : AgentType
  status : WorkflowStatus
  result : Payload
  execution_time : Option Rat
  error_message : Option String
  generated_at : Nat
  deriving DecidableEq, Repr

/-- Constructing an `AgentResult`.  The source declares no `Field`
constraint and no validator on any field of `AgentResult`, so pydantic
accepts every well-typed combination. -/
def mkAgentResult (agent_type : AgentType) (status : WorkflowStatus)
    (result : Payload) (execution_time : Option Rat)
    (error_message : Option String) (generated_at : Nat) :
    Option AgentResult :=
  some { agent_type, status, result, execution_time, error_message,
         generated_at }

/-- `WorkflowState` from `data_models.py`. -/
structure WorkflowState where
  workflow_id : String
  status : WorkflowStatus
  current_agent : Option AgentType
  progress_percentage : Rat
  agent_results : List AgentResult
  input_data : Option WorkflowInput
  final_result : Option Payload
  error_message : Option String
  started_at : Nat
  completed_at : Option Nat
  deriving DecidableEq, Repr

/-- Constructing a `WorkflowState`.  The only declared constraint is
`progress_percentage = Field(ge=0.0, le=100.0, default=0.0)`; `agent_results`
defaults to `[]` and `completed_at` to `None`.  `none` arguments stand for
omitted keyword arguments. -/
def mkWorkflowState (workflow_id : String) (status : WorkflowStatus)
    (current_agent : Option AgentType) (progress_percentage : Option Rat)
    (agent_results : Option (List AgentResult))
    (input_data : Option WorkflowInput) (final_result : Option Payload)
    (error_message : Option String) (started_at : Nat)
    (completed_at : Option Nat) : Option WorkflowState :=
  let p := progress_percentage.getD 0
  if 0 ≤ p ∧ p ≤ 100 then
    some { workflow_id, status, current_agent, progress_percentage := p,
           agent_results := agent_results.getD [], input_data, final_result,
           error_message, started_at, completed_at }
  else
    none

/-- `ProgressUpdate` from `data_models.py`. -/
structure ProgressUpdate where
  workflow_id : String
  agent_type : Option AgentType
  progress_percentage : Rat
  status_message : String
  current_step : Option String
  deriving DecidableEq, Repr

/-- Constructing a `ProgressUpdate`.  The source declares
`progress_percentage: float` with no `Field` bounds and no validator, so
pydantic accepts every float. -/
def mkProgressUpdate (workflow_id : String) (agent_type : Option AgentType)
    (progress_percentage : Rat) (status_message : String)
    (current_step : Option String) : Option ProgressUpdate :=
  some { workflow_id, agent_type, progress_percentage, status_message,
         current_step }

/-- `AnalysisRequest` from `data_models.py`. -/
structure AnalysisRequest where
  product_category : String
  data_files : Option (List String)
  forecast_horizon : Int
  include_news_analysis : Bool
  include_simulation : Bool
  simulation_scenarios : Option (List String)
  user_preferences : Payload
  deriving DecidableEq, Repr

/-- Constructing an `AnalysisRequest`.  Declared constraints:
`product_category = Field(min_length=1)`,
`forecast_horizon = Field(ge=7, le=365, default=30)`; the two booleans
default to `True`.  `none` arguments stand for omitted keyword
arguments. -/
def mkAnalysisRequest (product_category : String)
    (data_files : Option (List String)) (forecast_horizon : Option Int)
    (include_news_analysis : Option Bool) (include_simulation : Option Bool)
    (simulation_scenarios : Option (List String))
    (user_preferences : Payload) : Option AnalysisRequest :=
  let h := forecast_horizon.getD 30
  if 1 ≤ product_category.length ∧ 7 ≤ h ∧ h ≤ 365 then
    some { product_category, data_files, forecast_horizon := h,
           include_news_analysis := include_news_analysis.getD true,
           include_simulation := include_simulation.getD true,
           simulation_scenarios, user_preferences }
  else
    none

/-!
Embedding of `config.py` (`Settings`) and `base_agent.py` (`BaseAgent`).
Python dictionaries with string keys are modelled as association lists
with Python's `dict.update` semantics (replace in place, else append).
-/

/-- Heterogeneous configuration values, covering the kinds of values the
source stores in agent configuration dictionaries. -/
inductive ConfigValue
  | natVal (n : Nat)
  | ratVal (q : Rat)
  | boolVal (b : Bool)
  | strVal (s : String)
  | strListVal (l : List String)
  deriving DecidableEq, Repr

/-- The fields of `config.py`'s `Settings` that agent configuration
reads, with their declared defaults carried by `defaultSettings`. -/
structure Settings where
  WORKFLOW_TIMEOUT : Nat
  ENABLE_CACHING : Bool
  CACHE_TTL : Nat
  FORECASTING_MODEL : String
  SIMULATION_ITERATIONS : Nat
  NEWS_SOURCES : List String
  MAX_CONCURRENT_WORKFLOWS : Nat
  deriving Repr

/-- The declared defaults of `Settings` in `config.py`. -/
def defaultSettings : Settings :=
  { WORKFLOW_TIMEOUT := 300
    ENABLE_CACHING := true
    CACHE_TTL := 3600
    FORECASTING_MODEL := "timegpt-1"
    SIMULATION_ITERATIONS := 1000
    NEWS_SOURCES := ["reuters", "bloomberg", "wsj", "financial-times"]
    MAX_CONCURRENT_WORKFLOWS := 5 }

/-- Python `d[k] = v` on a string-keyed dict modelled as an association
list: replace the binding in place if the key is present, else append. -/
def dictSet (d : List (String × ConfigValue)) (k : String) (v : ConfigValue) :
    List (String × ConfigValue) :=
  if d.any (fun p => p.1 = k) then
    d.map (fun p => if p.1 = k then (k, v) else p)
  else
    d ++ [(k, v)]

/-- Python `d.update(e)`: apply `dictSet` for each binding of `e` in
order. -/
def dictUpdate (d e : List (String × ConfigValue)) :
    List (String × ConfigValue) :=
  e.foldl (fun acc p => dictSet acc p.1 p.2) d

/-- Python `d.get(k)` / `d[k]`. -/
def dictGet (d : List (String × ConfigValue)) (k : String) :
    Option ConfigValue :=
  (d.find? (fun p => p.1 = k)).map (fun p => p.2)

/-- The `base_config` dictionary built in `BaseAgent._load_agent_config`. -/
def base_config (s : Settings) : List (String × ConfigValue) :=
  [("timeout", .natVal s.WORKFLOW_TIMEOUT),
   ("max_retries", .natVal 3),
   ("retry_delay", .ratVal 1),
   ("enable_caching", .boolVal s.ENABLE_CACHING),
   ("cache_ttl", .natVal s.CACHE_TTL)]

/-- The `agent_configs` per-kind dictionaries built in
`BaseAgent._load_agent_config`. -/
def agent_configs (s : Settings) : AgentType → List (String × ConfigValue)
  | .forecasting =>
      [("model_type", .strVal s.FORECASTING_MODEL),
       ("confidence_level", .ratVal (95 / 100)),
       ("max_forecast_days", .natVal 365)]
  | .news =>
      [("max_articles", .natVal 50),
       ("sources", .strListVal s.NEWS_SOURCES),
       ("min_relevance", .ratVal (5 / 10))]
  | .simulation =>
      [("iterations", .natVal s.SIMULATION_ITERATIONS),
       ("confidence_level", .ratVal (95 / 100)),
       ("max_scenarios", .natVal 10)]
  | .summary =>
      [("max_slides", .natVal 20),
       ("include_charts", .boolVal true),
       ("executive_summary", .boolVal true)]

/-- `BaseAgent._load_agent_config`:
`base_config.update(agent_configs.get(self.agent_type, {}))` followed by
`return base_config`. -/
def load_agent_config (s : Settings) (t : AgentType) :
    List (String × ConfigValue) :=
  dictUpdate (base_config s) (agent_configs s t)

/-- The mutable state a `BaseAgent` holds after `__init__`
(`base_agent.py`).  Progress callbacks are modelled by opaque numeric
identifiers; `float` time fields by `Rat`. -/
structure BaseAgentState where
  agent_type : AgentType
  workflow_id : String
  status : WorkflowStatus
  result_data : Option Payload
  error_message : Option String
  execution_time : Option Rat
  progress_callbacks : List Nat
  config : List (String × ConfigValue)
  start_time : Option Rat
  end_time : Option Rat
  deriving DecidableEq, Repr

/-- `BaseAgent.__init__`.  `workflow_id` is an optional argument
(default `None`); the source computes
`self.workflow_id = workflow_id or str(uuid.uuid4())`, where a Python
string is falsy exactly when it is empty, so `None` and `""` both get the
fresh UUID string (passed here as `freshUuid`). -/
def mkBaseAgent (s : Settings) (agent_type : AgentType)
    (workflow_id : Option String) (freshUuid : String) : BaseAgentState :=
  let wid := match workflow_id with
    | none => freshUuid
    | some w => if w = "" then freshUuid else w
  { agent_type, workflow_id := wid, status := .pending,
    result_data := none, error_message := none, execution_time := none,
    progress_callbacks := [], config := load_agent_config s agent_type,
    start_time := none, end_time := none }

/-- `BaseAgent.add_progress_callback`: appends to the callback list. -/
def add_progress_callback (a : BaseAgentState) (callback : Nat) :
    BaseAgentState :=
  { a with progress_callbacks := a.progress_callbacks ++ [callback] }

/-- The `ProgressUpdate` value `BaseAgent._notify_progress` builds from
its arguments. -/
def progressEvent (a : BaseAgentState) (progress : Rat) (message : String)
    (step : Option String) : ProgressUpdate :=
  { workflow_id := a.workflow_id, agent_type := some a.agent_type,
    progress_percentage := progress, status_message := message,
    current_step := step }

/-- `BaseAgent._notify_progress`: builds one `ProgressUpdate` and invokes
every registered callback on it, in list order.  The return value is the
delivery log: which callback received which event, in invocation order. -/
def notify_progress (a : BaseAgentState) (progress : Rat) (message : String)
    (step : Option String) : List (Nat × ProgressUpdate) :=
  let pu := progressEvent a progress message step
  a.progress_callbacks.map (fun cb => (cb, pu))

/-- A sequence of `_notify_progress` calls on one agent (the callback
list unchanged in between): the concatenated delivery log. -/
def notify_many (a : BaseAgentState)
    (events : List (Rat × String × Option String)) :
    List (Nat × ProgressUpdate) :=
  events.flatMap (fun e => notify_progress a e.1 e.2.1 e.2.2)

/-- A concrete `AgentResult` used in counterexamples. -/
def sampleResult : AgentResult :=
  { agent_type := .forecasting, status := .completed, result := [],
    execution_time := none, error_message := none, generated_at := 0 }

/-- Claim C1, counterexample: the source puts no restriction on
`AgentResult.status`, so constructing an `AgentResult` with status
`pending` succeeds rather than being rejected. -/
theorem agentResult_pending_is_accepted :
    (mkAgentResult .forecasting .pending [] none none 0).isSome = true := rfl

/-- Claim C1 as amended: `AgentResult.status` accepts every
`WorkflowStatus` value, including `pending`, `running` and `cancelled`;
construction always succeeds and stores the given status. -/
theorem agentResult_status_unrestricted (t : AgentType)
    (st : WorkflowStatus) (r : Payload) (et : Option Rat)
    (em : Option String) (g : Nat) :
    Option.map AgentResult.status (mkAgentResult t st r et em g) = some st :=
  rfl

/-- Claim C2, counterexample: a `WorkflowState` whose `agent_results`
holds two entries of the same `AgentType` is accepted, not rejected. -/
theorem workflowState_duplicate_agent_results_accepted :
    Option.map WorkflowState.agent_results
        (mkWorkflowState "w" .running none none
          (some [sampleResult, sampleResult]) none none none 0 none)
      = some [sampleResult, sampleResult] := by
  simp [mkWorkflowState]

/-- Claim C2 as amended: `WorkflowState.agent_results` is an
unconstrained list — every list, duplicates of one `AgentType` included,
is accepted verbatim (the only validation on the model concerns
`progress_percentage`, here left at its default). -/
theorem workflowState_agent_results_unconstrained (wid : String)
    (st : WorkflowStatus) (ca : Option AgentType) (rs : List AgentResult)
    (idat : Option WorkflowInput) (fr : Option Payload)
    (em : Option String) (sa : Nat) (cat : Option Nat) :
    Option.map WorkflowState.agent_results
        (mkWorkflowState wid st ca none (some rs) idat fr em sa cat)
      = some rs := by
  simp [mkWorkflowState]

/-- Claim C3, counterexample: a `WorkflowState` with terminal status
`completed` and `completed_at` absent is accepted, so the biconditional
is not enforced. -/
theorem workflowState_terminal_without_completed_at_accepted :
    (mkWorkflowState "w" .completed none none none none none none 0
        none).isSome = true := by
  simp [mkWorkflowState]

/-- Claim C3 as amended: the source links `completed_at` to `status` in
no way — every combination of status and `completed_at` (terminal with
it absent, non-terminal with it set) is accepted. -/
theorem workflowState_completed_at_independent_of_status (wid : String)
    (st : WorkflowStatus) (ca : Option AgentType)
    (idat : Option WorkflowInput) (fr : Option Payload)
    (em : Option String) (sa : Nat) (cat : Option Nat) :
    (mkWorkflowState wid st ca none none idat fr em sa cat).isSome
      = true := by
  simp [mkWorkflowState]

/-- Claim C6, counterexample: `ProgressUpdate.progress_percentage` has
no declared bounds, so the value 150 is accepted rather than rejected. -/
theorem progressUpdate_out_of_range_accepted :
    (mkProgressUpdate "w" none 150 "m" none).isSome = true := rfl

/-- Claim C6 as amended: `WorkflowState.progress_percentage` is confined
to [0,100] with default 0 when omitted, but
`ProgressUpdate.progress_percentage` is unconstrained — any value is
accepted. -/
theorem progress_percentage_fields :
    (∀ (wid : String) (t : Option AgentType) (p : Rat) (m : String)
        (cs : Option String),
      (mkProgressUpdate wid t p m cs).isSome = true) ∧
    (∀ (wid : String) (st : WorkflowStatus) (ca : Option AgentType)
        (p : Rat) (rs : Option (List AgentResult))
        (idat : Option WorkflowInput) (fr : Option Payload)
        (em : Option String) (sa : Nat) (cat : Option Nat),
      (mkWorkflowState wid st ca (some p) rs idat fr em sa cat).isSome
        = true ↔ 0 ≤ p ∧ p ≤ 100) ∧
    (∀ (wid : String) (st : WorkflowStatus) (ca : Option AgentType)
        (rs : Option (List AgentResult)) (idat : Option WorkflowInput)
        (fr : Option Payload) (em : Option String) (sa : Nat)
        (cat : Option Nat),
      Option.map WorkflowState.progress_percentage
          (mkWorkflowState wid st ca none rs idat fr em sa cat)
        = some 0) := by
  refine ⟨fun _ _ _ _ _ => rfl, fun wid st ca p rs idat fr em sa cat => ?_,
    fun wid st ca rs idat fr em sa cat => ?_⟩
  · simp [mkWorkflowState]
  · simp [mkWorkflowState]

/-- Claim C9, counterexample: `BaseAgent.__init__` computes
`workflow_id or str(uuid.uuid4())`, and the empty string is falsy in
Python, so an explicitly given empty `workflow_id` is NOT kept
unchanged — it is replaced by the fresh UUID. -/
theorem baseAgent_empty_workflow_id_replaced :
    (mkBaseAgent defaultSettings .summary (some "")
        "7b1c2d3e-uuid").workflow_id = "7b1c2d3e-uuid" := by
  simp [mkBaseAgent]

/-- Claim C9 as amended: a fresh `BaseAgent` starts with status
`pending`, all of `result_data`, `error_message`, `execution_time`,
`start_time`, `end_time` absent and no progress callbacks; the workflow
id is the fresh UUID when the argument is omitted (`None`) or the empty
string, and the given string otherwise. -/
theorem baseAgent_init_state (s : Settings) (t : AgentType)
    (fresh : String) :
    ((mkBaseAgent s t none fresh).workflow_id = fresh) ∧
    ((mkBaseAgent s t (some "") fresh).workflow_id = fresh) ∧
    (∀ w : String, w ≠ "" →
      (mkBaseAgent s t (some w) fresh).workflow_id = w) ∧
    (∀ wid : Option String,
      (mkBaseAgent s t wid fresh).status = .pending ∧
      (mkBaseAgent s t wid fresh).result_data = none ∧
      (mkBaseAgent s t wid fresh).error_message = none ∧
      (mkBaseAgent s t wid fresh).execution_time = none ∧
      (mkBaseAgent s t wid fresh).start_time = none ∧
      (mkBaseAgent s t wid fresh).end_time = none ∧
      (mkBaseAgent s t wid fresh).progress_callbacks = []) := by
  refine ⟨rfl, by simp [mkBaseAgent], fun w hw => ?_,
    fun wid => ⟨rfl, rfl, rfl, rfl, rfl, rfl, rfl⟩⟩
  simp [mkBaseAgent, hw]

/-- Witness for `baseAgent_init_state` at concrete inputs. -/
theorem baseAgent_init_state_witness :
    (mkBaseAgent defaultSettings .news (some "abc")
        "u1-uuid").workflow_id = "abc" :=
  (baseAgent_init_state defaultSettings .news "u1-uuid").2.2.1 "abc"
    (by decide)

/-- Claim C10: constructing an `AnalysisRequest` rejects an empty
`product_category` (min_length 1) and any `forecast_horizon` outside
[7, 365]; omitted `forecast_horizon` defaults to 30 and the two analysis
flags default to true. -/
theorem analysisRequest_validation :
    (∀ (df : Option (List String)) (hz : Option Int)
        (inews isim : Option Bool) (ss : Option (List String))
        (up : Payload),
      mkAnalysisRequest "" df hz inews isim ss up = none) ∧
    (∀ (pc : String) (df : Option (List String)) (hz : Int)
        (inews isim : Option Bool) (ss : Option (List String))
        (up : Payload),
      (mkAnalysisRequest pc df (some hz) inews isim ss up).isSome = true
        ↔ 1 ≤ pc.length ∧ 7 ≤ hz ∧ hz ≤ 365) ∧
    (∀ (pc : String) (df : Option (List String))
        (ss : Option (List String)) (up : Payload),
      Option.map
          (fun r => (r.forecast_horizon, r.include_news_analysis,
            r.include_simulation))
          (mkAnalysisRequest pc df none none none ss up)
        = if 1 ≤ pc.length then some (30, true, true) else none) := by
  refine ⟨fun df hz inews isim ss up => ?_,
    fun pc df hz inews isim ss up => ?_, fun pc df ss up => ?_⟩
  · simp [mkAnalysisRequest]
  · simp [mkAnalysisRequest]
  · by_cases h : 1 ≤ pc.length <;> simp [mkAnalysisRequest, h]

/-- Claim C4: for every `AgentType`, the resolved configuration is the
`dict.update` merge of the global default record with that kind's
specific parameters; since no kind-specific key collides with a default
key, the result lists the five default keys first, bound to the global
settings values, followed by exactly that kind's extra keys (whose
bindings take precedence by the update semantics), and the resolution is
stored once on the agent at construction. -/
theorem agent_config_merge (s : Settings) (t : AgentType) :
    (dictGet (load_agent_config s t) "timeout"
        = some (.natVal s.WORKFLOW_TIMEOUT) ∧
      dictGet (load_agent_config s t) "max_retries" = some (.natVal 3) ∧
      dictGet (load_agent_config s t) "retry_delay" = some (.ratVal 1) ∧
      dictGet (load_agent_config s t) "enable_caching"
        = some (.boolVal s.ENABLE_CACHING) ∧
      dictGet (load_agent_config s t) "cache_ttl"
        = some (.natVal s.CACHE_TTL)) ∧
    ((load_agent_config s t).map Prod.fst
      = (base_config s).map Prod.fst ++ (agent_configs s t).map Prod.fst) ∧
    (∀ kv ∈ agent_configs s t,
      dictGet (load_agent_config s t) kv.1 = some kv.2) ∧
    (∀ (wid : Option String) (fresh : String),
      (mkBaseAgent s t wid fresh).config = load_agent_config s t) := by
  cases t <;>
    refine ⟨⟨?_, ?_, ?_, ?_, ?_⟩, ?_, ?_, fun wid fresh => rfl⟩ <;>
    simp [load_agent_config, dictUpdate, dictSet, dictGet, base_config,
      agent_configs, List.find?]

/-- Witness for `agent_config_merge` at concrete inputs. -/
theorem agent_config_merge_witness :
    dictGet (load_agent_config defaultSettings .news) "max_articles"
      = some (.natVal 50) :=
  (agent_config_merge defaultSettings .news).2.2.1
    ("max_articles", .natVal 50) (by simp [agent_configs])

/-- Helper: a callback absent from the list receives nothing. -/
theorem filterPair_count_zero (cb : Nat) (x : ProgressUpdate) :
    ∀ l : List Nat, l.count cb = 0 →
      ((l.map fun c => (c, x)).filter fun d => d.1 = cb) = [] := by
  intro l
  induction l with
  | nil => intro _; rfl
  | cons c l ih =>
    intro h
    by_cases hc : c = cb
    · subst hc; simp [List.count_cons] at h
    · simp only [List.count_cons] at h
      simp [List.filter, hc, ih (by omega)]

/-- Helper: a callback registered exactly once receives each event
exactly once. -/
theorem filterPair_count_one (cb : Nat) (x : ProgressUpdate) :
    ∀ l : List Nat, l.count cb = 1 →
      ((l.map fun c => (c, x)).filter fun d => d.1 = cb) = [(cb, x)] := by
  intro l
  induction l with
  | nil => intro h; simp at h
  | cons c l ih =>
    intro h
    by_cases hc : c = cb
    · subst hc
      have h0 : l.count c = 0 := by simp [List.count_cons] at h; omega
      simp [List.filter, filterPair_count_zero c x l h0]
    · simp only [List.count_cons] at h
      simp [List.filter, hc, ih (by simp [hc] at h; omega)]

/-- Claim C5: with no registered callback, `_notify_progress` is a
successful no-op; otherwise the one built event is handed once to every
registered callback in registration order, so a callback registered once
observes the agent's events in emission order across a sequence of
notifications. -/
theorem notify_progress_delivery :
    (∀ (a : BaseAgentState) (p : Rat) (m : String) (st : Option String),
      a.progress_callbacks = [] → notify_progress a p m st = []) ∧
    (∀ (a : BaseAgentState) (p : Rat) (m : String) (st : Option String),
      (notify_progress a p m st).map Prod.fst = a.progress_callbacks ∧
      ∀ d ∈ notify_progress a p m st, d.2 = progressEvent a p m st) ∧
    (∀ (a : BaseAgentState) (es : List (Rat × String × Option String))
        (cb : Nat),
      a.progress_callbacks.count cb = 1 →
      ((notify_many a es).filter fun d => d.1 = cb).map Prod.snd
        = es.map fun e => progressEvent a e.1 e.2.1 e.2.2) := by
  refine ⟨fun a p m st h => by simp [notify_progress, h],
    fun a p m st => ⟨by simp [notify_progress]; exact List.map_id _,
      fun d hd => by
        simp [notify_progress] at hd
        obtain ⟨c, hc, rfl⟩ := hd
        rfl⟩,
    fun a es cb h => ?_⟩
  induction es with
  | nil => rfl
  | cons e es ih =>
    have hstep : notify_many a (e :: es)
        = notify_progress a e.1 e.2.1 e.2.2 ++ notify_many a es := by
      simp [notify_many]
    rw [hstep, List.filter_append, List.map_append, ih]
    have hone := filterPair_count_one cb (progressEvent a e.1 e.2.1 e.2.2)
      a.progress_callbacks h
    simp only [notify_progress] at hone ⊢
    rw [hone]
    rfl

/-- Witness for `notify_progress_delivery` at concrete inputs. -/
theorem notify_progress_delivery_witness :
    (notify_progress
        { agent_type := .news, workflow_id := "w", status := .pending,
          result_data := none, error_message := none,
          execution_time := none, progress_callbacks := [],
          config := [], start_time := none, end_time := none }
        50 "half" none = []) ∧
    (((notify_many
          { agent_type := .news, workflow_id := "w", status := .pending,
            result_data := none, error_message := none,
            execution_time := none, progress_callbacks := [7],
            config := [], start_time := none, end_time := none }
          [(30, "a", none), (60, "b", none)]).filter
        fun d => d.1 = 7).map Prod.snd
      = [(30, "a", (none : Option String)),
         (60, "b", none)].map fun e =>
          progressEvent
            { agent_type := .news, workflow_id := "w", status := .pending,
              result_data := none, error_message := none,
              execution_time := none, progress_callbacks := [7],
              config := [], start_time := none, end_time := none }
            e.1 e.2.1 e.2.2) :=
  ⟨notify_progress_delivery.1 _ 50 "half" none rfl,
   notify_progress_delivery.2.2 _ [(30, "a", none), (60, "b", none)] 7
     (by decide)⟩

/-!
Retry wrapper (spec §4.1 "Retry policy").  The repository declares the
configuration fields `max_retries` and `retry_delay` in
`BaseAgent._load_agent_config` but contains no execution wrapper; the
wrapper below is modelled from the spec.
-/

/-- Classification of a failed attempt of the agent body. -/
inductive FailureKind
  | transient
  | cancellation
  | validation
  deriving DecidableEq, Repr

/-- Outcome of one attempt of the agent body, indexed by attempt
number. -/
inductive AttemptOutcome
  | ok (payload : Payload)
  | err (kind : FailureKind) (cause : String)
  deriving DecidableEq, Repr

/-- Result of running the agent body under the retry wrapper:
terminal status, payload or error, number of retries performed, number
of attempts made, and the delays slept between attempts. -/
structure RetryResult where
  status : WorkflowStatus
  payload : Option Payload
  error : Option String
  retries : Nat
  attempts_made : Nat
  delays : List Rat
  deriving DecidableEq, Repr

/-- Modelled from the spec: the execution wrapper's retry loop, absent
from src/ (only its configuration fields exist).  Spec §4.1: "on a
transient failure, retry up to `max_retries` times with `retry_delay`
between attempts (fixed delay, not exponential); a cancellation or an
input-validation failure is never retried; exhausting retries yields a
failed `AgentResult` whose error records the last failure cause and the
retry count."  `attempt` is the current attempt index, `remaining` the
retries still allowed, `delays` the delays slept so far. -/
def retryFrom (retry_delay : Rat) (body : Nat → AttemptOutcome) :
    Nat → Nat → List Rat → RetryResult
  | attempt, remaining, delays =>
    match body attempt with
    | .ok p =>
        { status := .completed, payload := some p, error := none,
          retries := attempt, attempts_made := attempt + 1,
          delays := delays }
    | .err .transient cause =>
        match remaining with
        | 0 =>
            { status := .failed, payload := none, error := some cause,
              retries := attempt, attempts_made := attempt + 1,
              delays := delays }
        | r + 1 =>
            retryFrom retry_delay body (attempt + 1) r
              (delays ++ [retry_delay])
    | .err _ cause =>
        { status := .failed, payload := none, error := some cause,
          retries := attempt, attempts_made := attempt + 1,
          delays := delays }

/-- Modelled from the spec: running the agent body under the retry
wrapper with the configured `max_retries` and `retry_delay`. -/
def runWithRetries (max_retries : Nat) (retry_delay : Rat)
    (body : Nat → AttemptOutcome) : RetryResult :=
  retryFrom retry_delay body 0 max_retries []

/-- Helper: if every attempt fails transiently, the loop exhausts its
remaining budget, sleeping the fixed delay before each retry. -/
theorem retryFrom_all_transient (d : Rat) (body : Nat → AttemptOutcome)
    (cause : Nat → String)
    (h : ∀ i, body i = .err .transient (cause i)) :
    ∀ (remaining attempt : Nat) (delays : List Rat),
      retryFrom d body attempt remaining delays =
        { status := .failed, payload := none,
          error := some (cause (attempt + remaining)),
          retries := attempt + remaining,
          attempts_made := attempt + remaining + 1,
          delays := delays ++ List.replicate remaining d } := by
  intro remaining
  induction remaining with
  | zero =>
    intro attempt delays
    rw [retryFrom, h attempt]
    simp
  | succ r ih =>
    intro attempt delays
    rw [retryFrom, h attempt]
    simp only
    rw [ih (attempt + 1) (delays ++ [d])]
    have harr : attempt + 1 + r = attempt + (r + 1) := by omega
    have hdel : delays ++ [d] ++ List.replicate r d
        = delays ++ List.replicate (r + 1) d := by
      rw [List.append_assoc]; rfl
    rw [harr, hdel]

/-- Helper: a non-transient failure at attempt `k` (preceded by `k`
transient failures) stops the loop at once: no further attempt, no
further delay. -/
theorem retryFrom_stops_on_nontransient (d : Rat)
    (body : Nat → AttemptOutcome) (kind : FailureKind) (c : String)
    (hk : kind ≠ .transient) :
    ∀ (k attempt remaining : Nat) (delays : List Rat),
      (∀ i, i < k → ∃ cc, body (attempt + i) = .err .transient cc) →
      body (attempt + k) = .err kind c →
      k ≤ remaining →
      retryFrom d body attempt remaining delays =
        { status := .failed, payload := none, error := some c,
          retries := attempt + k, attempts_made := attempt + k + 1,
          delays := delays ++ List.replicate k d } := by
  intro k
  induction k with
  | zero =>
    intro attempt remaining delays _ hb _
    simp only [Nat.add_zero] at hb
    rw [retryFrom, hb]
    cases kind with
    | transient => exact absurd rfl hk
    | cancellation => simp
    | validation => simp
  | succ j ih =>
    intro attempt remaining delays hpre hb hle
    obtain ⟨cc, hcc⟩ := hpre 0 (Nat.succ_pos j)
    simp only [Nat.add_zero] at hcc
    obtain ⟨r, rfl⟩ : ∃ r, remaining = r + 1 :=
      ⟨remaining - 1, by omega⟩
    rw [retryFrom, hcc]
    simp only
    have hres := ih (attempt + 1) r (delays ++ [d])
      (fun i hi => by
        have := hpre (i + 1) (by omega)
        simpa [Nat.add_assoc, Nat.add_comm 1 i] using this)
      (by simpa [Nat.add_assoc, Nat.add_comm 1 j] using hb)
      (by omega)
    rw [hres]
    have harr : attempt + 1 + j = attempt + (j + 1) := by omega
    have hdel : delays ++ [d] ++ List.replicate j d
        = delays ++ List.replicate (j + 1) d := by
      rw [List.append_assoc]; rfl
    rw [harr, hdel]

/-- Claim C7 (spec-modelled): a body failing transiently on every
attempt is retried `max_retries` times with the fixed `retry_delay`
between attempts and, after `max_retries + 1` failures, yields a failed
result recording the last failure cause and a retry count equal to
`max_retries`; a cancellation or validation failure at any attempt stops
the wrapper immediately, with no further attempt or delay. -/
theorem retry_policy_spec (max_retries : Nat) (d : Rat)
    (body : Nat → AttemptOutcome) :
    (∀ cause : Nat → String,
      (∀ i, body i = .err .transient (cause i)) →
      runWithRetries max_retries d body =
        { status := .failed, payload := none,
          error := some (cause max_retries),
          retries := max_retries, attempts_made := max_retries + 1,
          delays := List.replicate max_retries d }) ∧
    (∀ (k : Nat) (kind : FailureKind) (c : String),
      kind ≠ .transient → k ≤ max_retries →
      (∀ i, i < k → ∃ cc, body i = .err .transient cc) →
      body k = .err kind c →
      runWithRetries max_retries d body =
        { status := .failed, payload := none, error := some c,
          retries := k, attempts_made := k + 1,
          delays := List.replicate k d }) := by
  constructor
  · intro cause hbody
    have := retryFrom_all_transient d body cause hbody max_retries 0 []
    simpa [runWithRetries] using this
  · intro k kind c hkind hle hpre hb
    have := retryFrom_stops_on_nontransient d body kind c hkind k 0
      max_retries [] (by simpa using hpre) (by simpa using hb) hle
    simpa [runWithRetries] using this

/-- Witness for `retry_policy_spec` at concrete inputs. -/
theorem retry_policy_spec_witness :
    (runWithRetries 2 1 (fun _ => .err .transient "boom") =
      { status := .failed, payload := none, error := some "boom",
        retries := 2, attempts_made := 3, delays := [1, 1] }) ∧
    (runWithRetries 3 1
        (fun i => if i < 1 then .err .transient "t"
          else .err .cancellation "stop") =
      { status := .failed, payload := none, error := some "stop",
        retries := 1, attempts_made := 2, delays := [1] }) :=
  ⟨(retry_policy_spec 2 1 _).1 (fun _ => "boom") (fun _ => rfl),
   (retry_policy_spec 3 1 _).2 1 .cancellation "stop" (by decide)
     (by decide)
     (fun i hi => ⟨"t", by
       have h0 : i = 0 := by omega
       subst h0; rfl⟩)
     rfl⟩

/-!
Concurrency admission (spec §4.5).  The repository declares
`MAX_CONCURRENT_WORKFLOWS` in `config.py` but contains no orchestrator;
the admission discipline below is modelled from the spec.
-/

/-- Whether a `WorkflowStatus` is terminal. -/
def isTerminal : WorkflowStatus → Bool
  | .completed => true
  | .failed => true
  | .cancelled => true
  | _ => false

/-- Modelled from the spec: orchestrator state, absent from src/.  The
workflows are kept in submission order with their current status;
`max_concurrent` is the configured `MAX_CONCURRENT_WORKFLOWS`. -/
structure OrchestratorState where
  max_concurrent : Nat
  workflows : List (Nat × WorkflowStatus)
  deriving DecidableEq, Repr

/-- Number of workflows currently `running`. -/
def runningCount (ws : List (Nat × WorkflowStatus)) : Nat :=
  ws.countP (fun w => decide (w.2 = .running))

/-- Current status of workflow `id`, if present. -/
def statusOf (ws : List (Nat × WorkflowStatus)) (id : Nat) :
    Option WorkflowStatus :=
  (ws.find? (fun w => decide (w.1 = id))).map (fun w => w.2)

/-- Set the status of workflow `id`. -/
def setStatus (ws : List (Nat × WorkflowStatus)) (id : Nat)
    (st : WorkflowStatus) : List (Nat × WorkflowStatus) :=
  ws.map (fun w => if w.1 = id then (w.1, st) else w)

/-- Admit the first `pending` workflow, in submission order, to
`running` (spec: "Admission order among waiting workflows is
first-submitted-first-admitted"). -/
def admitFirstPending :
    List (Nat × WorkflowStatus) → List (Nat × WorkflowStatus)
  | [] => []
  | w :: rest =>
      if w.2 = .pending then (w.1, .running) :: rest
      else w :: admitFirstPending rest

/-- Orchestrator events: a submission, or a running workflow reaching a
terminal state. -/
inductive OrchEvent
  | submit (id : Nat)
  | finish (id : Nat) (final : WorkflowStatus)
  deriving DecidableEq, Repr

/-- Modelled from the spec: one orchestrator step (§4.5).  A submission
is admitted to `running` only when fewer than `max_concurrent` workflows
are running, and otherwise joins as `pending`; when a running workflow
reaches a terminal status its slot frees and the first pending workflow
(if any, and if a slot is indeed free) is admitted. -/
def stepOrch (s : OrchestratorState) : OrchEvent → OrchestratorState
  | .submit id =>
      if runningCount s.workflows < s.max_concurrent then
        { s with workflows := s.workflows ++ [(id, .running)] }
      else
        { s with workflows := s.workflows ++ [(id, .pending)] }
  | .finish id final =>
      if isTerminal final = true
          ∧ statusOf s.workflows id = some .running then
        { s with workflows :=
            if runningCount (setStatus s.workflows id final)
                < s.max_concurrent then
              admitFirstPending (setStatus s.workflows id final)
            else setStatus s.workflows id final }
      else s

/-- Modelled from the spec: the orchestrator state after a sequence of
events, starting empty. -/
def runOrch (max : Nat) (events : List OrchEvent) : OrchestratorState :=
  events.foldl stepOrch { max_concurrent := max, workflows := [] }

/-- Helper: setting a workflow to a non-running status never increases
the running count. -/
theorem runningCount_setStatus_le (id : Nat) (st : WorkflowStatus)
    (hst : st ≠ .running) :
    ∀ ws : List (Nat × WorkflowStatus),
      runningCount (setStatus ws id st) ≤ runningCount ws := by
  intro ws
  induction ws with
  | nil => exact Nat.le_refl 0
  | cons w rest ih =>
    by_cases hw : w.1 = id
    · by_cases hr : w.2 = .running
      · simp [runningCount, setStatus, List.countP_cons, hw, hr, hst] at ih ⊢
        omega
      · simp [runningCount, setStatus, List.countP_cons, hw, hr, hst] at ih ⊢
        omega
    · by_cases hr : w.2 = .running
      · simp [runningCount, setStatus, List.countP_cons, hw, hr] at ih ⊢
        omega
      · simp [runningCount, setStatus, List.countP_cons, hw, hr] at ih ⊢
        omega

/-- Helper: admitting the first pending workflow increases the running
count by at most one. -/
theorem runningCount_admitFirstPending_le :
    ∀ ws : List (Nat × WorkflowStatus),
      runningCount (admitFirstPending ws) ≤ runningCount ws + 1 := by
  intro ws
  induction ws with
  | nil => simp [admitFirstPending, runningCount]
  | cons w rest ih =>
    by_cases hp : w.2 = .pending
    · simp [admitFirstPending, runningCount, List.countP_cons, hp]
    · by_cases hr : w.2 = .running
      · simp [admitFirstPending, runningCount, List.countP_cons, hp, hr]
          at ih ⊢
        omega
      · simp [admitFirstPending, runningCount, List.countP_cons, hp, hr]
          at ih ⊢
        omega

/-- Helper: each orchestrator step preserves the concurrency bound. -/
theorem stepOrch_preserves_bound (s : OrchestratorState) (e : OrchEvent)
    (h : runningCount s.workflows ≤ s.max_concurrent) :
    runningCount (stepOrch s e).workflows ≤ s.max_concurrent := by
  cases e with
  | submit id =>
    by_cases hlt : runningCount s.workflows < s.max_concurrent
    · simp only [stepOrch]
      rw [if_pos hlt]
      simp only [runningCount, List.countP_append] at h hlt ⊢
      simp
      omega
    · simp only [stepOrch]
      rw [if_neg hlt]
      simp only [runningCount, List.countP_append] at h ⊢
      simpa using h
  | finish id final =>
    by_cases hc : isTerminal final = true
        ∧ statusOf s.workflows id = some .running
    · have hfr : final ≠ .running := by
        intro heq
        rw [heq] at hc
        simp [isTerminal] at hc
      have h1 : runningCount (setStatus s.workflows id final)
          ≤ runningCount s.workflows :=
        runningCount_setStatus_le id final hfr s.workflows
      by_cases hlt : runningCount (setStatus s.workflows id final)
          < s.max_concurrent
      · have h2 := runningCount_admitFirstPending_le
          (setStatus s.workflows id final)
        simp only [stepOrch]
        rw [if_pos hc]
        simp only
        rw [if_pos hlt]
        omega
      · simp only [stepOrch]
        rw [if_pos hc]
        simp only
        rw [if_neg hlt]
        omega
    · simp only [stepOrch]
      rw [if_neg hc]
      exact h

/-- Helper: `stepOrch`'s maximum is unchanged by a step. -/
theorem stepOrch_max_eq (s : OrchestratorState) (e : OrchEvent) :
    (stepOrch s e).max_concurrent = s.max_concurrent := by
  cases e with
  | submit id =>
    by_cases hlt : runningCount s.workflows < s.max_concurrent <;>
      simp [stepOrch, hlt]
  | finish id final =>
    by_cases hc : isTerminal final = true
        ∧ statusOf s.workflows id = some .running <;>
      simp [stepOrch, hc]

/-- Helper: the bound holds along any event sequence from any state
satisfying it. -/
theorem runOrch_bound_aux :
    ∀ (events : List OrchEvent) (s : OrchestratorState),
      runningCount s.workflows ≤ s.max_concurrent →
      runningCount (events.foldl stepOrch s).workflows
        ≤ (events.foldl stepOrch s).max_concurrent := by
  intro events
  induction events with
  | nil => intro s h; exact h
  | cons e es ih =>
    intro s h
    have hstep := stepOrch_preserves_bound s e h
    rw [List.foldl_cons]
    exact ih (stepOrch s e) (by rw [stepOrch_max_eq]; exact hstep)

/-- Helper: admitting turns exactly the first pending entry to
running. -/
theorem admitFirstPending_first (idp : Nat)
    (post : List (Nat × WorkflowStatus)) :
    ∀ pre : List (Nat × WorkflowStatus),
      (∀ w ∈ pre, w.2 ≠ WorkflowStatus.pending) →
      admitFirstPending (pre ++ (idp, .pending) :: post)
        = pre ++ (idp, .running) :: post := by
  intro pre
  induction pre with
  | nil => intro _; simp [admitFirstPending]
  | cons w rest ih =>
    intro hpre
    have hw : w.2 ≠ WorkflowStatus.pending := hpre w (by simp)
    simp only [List.cons_append, admitFirstPending, if_neg hw,
      List.append_eq]
    rw [ih (fun x hx => hpre x (by simp [hx]))]

/-- Helper: the configured maximum is constant along a run. -/
theorem runOrch_max_const :
    ∀ (events : List OrchEvent) (s : OrchestratorState),
      (events.foldl stepOrch s).max_concurrent = s.max_concurrent := by
  intro events
  induction events with
  | nil => intro s; rfl
  | cons e es ih =>
    intro s
    rw [List.foldl_cons, ih (stepOrch s e), stepOrch_max_eq]

/-- Claim C8 (spec-modelled): under the admission discipline of spec
§4.5, with `MAX_CONCURRENT_WORKFLOWS` defaulting to 5 in `config.py`, at
most `max_concurrent` workflows are running after any event sequence; a
submission arriving with no free slot joins as `pending`; and when a
running workflow reaches a terminal state and a slot is free, the first
pending workflow in submission order is admitted to `running`. -/
theorem bounded_concurrency :
    (defaultSettings.MAX_CONCURRENT_WORKFLOWS = 5) ∧
    (∀ (max : Nat) (events : List OrchEvent),
      runningCount (runOrch max events).workflows ≤ max) ∧
    (∀ (s : OrchestratorState) (id : Nat),
      s.max_concurrent ≤ runningCount s.workflows →
      (stepOrch s (.submit id)).workflows
        = s.workflows ++ [(id, .pending)]) ∧
    (∀ (s : OrchestratorState) (id : Nat) (final : WorkflowStatus),
      isTerminal final = true →
      statusOf s.workflows id = some .running →
      runningCount (setStatus s.workflows id final) < s.max_concurrent →
      (stepOrch s (.finish id final)).workflows
        = admitFirstPending (setStatus s.workflows id final)) ∧
    (∀ (pre post : List (Nat × WorkflowStatus)) (idp : Nat),
      (∀ w ∈ pre, w.2 ≠ WorkflowStatus.pending) →
      admitFirstPending (pre ++ (idp, .pending) :: post)
        = pre ++ (idp, .running) :: post) := by
  refine ⟨rfl, fun max events => ?_, fun s id hge => ?_,
    fun s id final hterm hrun hlt => ?_,
    fun pre post idp hpre => admitFirstPending_first idp post pre hpre⟩
  · have h := runOrch_bound_aux events
      { max_concurrent := max, workflows := [] } (by simp [runningCount])
    rwa [runOrch_max_const] at h
  · simp only [stepOrch]
    rw [if_neg (by omega)]
  · simp only [stepOrch]
    rw [if_pos ⟨hterm, hrun⟩]
    simp only
    rw [if_pos hlt]

/-- Witness for `bounded_concurrency` at concrete inputs. -/
theorem bounded_concurrency_witness :
    ((stepOrch { max_concurrent := 1, workflows := [(1, .running)] }
        (.submit 2)).workflows = [(1, .running), (2, .pending)]) ∧
    ((stepOrch
        { max_concurrent := 1,
          workflows := [(1, .running), (2, .pending)] }
        (.finish 1 .completed)).workflows
      = admitFirstPending
          (setStatus [(1, .running), (2, .pending)] 1 .completed)) ∧
    (admitFirstPending [(1, .completed), (2, .pending)]
      = [(1, .completed), (2, .running)]) :=
  ⟨bounded_concurrency.2.2.1
      { max_concurrent := 1, workflows := [(1, .running)] } 2 (by decide),
   bounded_concurrency.2.2.2.1
      { max_concurrent := 1, workflows := [(1, .running), (2, .pending)] }
      1 .completed (by decide) (by decide) (by decide),
   bounded_concurrency.2.2.2.2 [(1, .completed)] [] 2 (by decide)⟩
